import Mathlib

/-!
Shallow embedding of `src/examples/ffmpeg.rs` (whisper-rs ffmpeg example).

The example drives a pull-based pipeline: demux packets, decode audio
packets of the selected stream, resample decoded frames to mono/f32/16kHz,
accumulate the converted samples into a growing buffer, and finally hand
the buffer to the whisper engine and print one line per result segment.

Modelling conventions:
  * Fallible Rust operations (`?`, `assert!`, `.expect`) become `Except Err`.
  * The external ffmpeg decoder and resampler are opaque collaborators; they
    are modelled as state machines with `push` / `takeAll` / `flush`, where
    `takeAll` is the semantics of the Rust `while let Some(f) = c.take()?`
    drain loop (the finite list of currently available output frames).
  * A 32-bit float sample is kept as its four raw bytes: the source never
    computes with the floats, it only reinterprets and copies them, so the
    byte-level view is exact.
  * The demuxer is the finite list of packets it yields before EndOfStream.
  * The whisper engine (`ctx.full` plus the segment table) is an opaque
    function from parameters and samples to a list of segments.
-/

namespace WhisperFfmpeg

/-- Error taxonomy of the pipeline, as named by the specification.
`unexpectedPlaneCount` models the `assert!(planes.len() == 1)` panic in
`get_mono_audio_data`; `segmentReadFailure` models the
`.expect("failed to get segment")` panic in the segment loop.
`malformedFrame` appears in the spec's Accumulator contract only; the
source never produces it. -/
inductive Err where
  | openFailure
  | noAudioStream
  | demuxFailure
  | decodeFailure
  | conversionFailure
  | unexpectedPlaneCount
  | malformedFrame
  | engineFailure
  | segmentReadFailure
  deriving DecidableEq, Repr

/-- A 32-bit float sample, represented by its four raw bytes (the source
only reinterprets byte buffers as `f32` slices and copies them, so the
byte-level representation is exact). -/
structure F32 where
  b0 : Nat
  b1 : Nat
  b2 : Nat
  b3 : Nat
  deriving DecidableEq, Repr

/-- `std::slice::from_raw_parts(input_ptr as *const f32, input_len / 4)`:
reinterpret a byte buffer as consecutive 32-bit floats, reading exactly
`input_len / 4` complete samples and ignoring any trailing bytes. -/
def chunk4 : List Nat → List F32
  | b0 :: b1 :: b2 :: b3 :: rest => F32.mk b0 b1 b2 b3 :: chunk4 rest
  | _ => []

/-- A converted (resampled) audio frame: a list of channel planes, each a
byte buffer (`frame.planes()` in the source). -/
structure ConvertedFrame where
  planes : List (List Nat)
  deriving DecidableEq, Repr

/-- A decoded raw audio frame. Opaque to the driver: it is only moved from
the decoder into the resampler. -/
abbrev RawFrame := Nat

/-- A compressed packet tagged with the index of the stream it belongs to
(`packet.stream_index()`). The payload is opaque. -/
structure Packet where
  stream_index : Nat
  payload : Nat
  deriving DecidableEq, Repr

/-- `get_mono_audio_data`: asserts the frame has exactly one plane (mono),
then reinterprets the plane's bytes as `f32` samples. The Rust
`assert!(planes.len() == 1)` aborts the computation when it fails; this is
modelled as `Err.unexpectedPlaneCount`. -/
def get_mono_audio_data (planes : List (List Nat)) : Except Err (List F32) :=
  match planes with
  | [p] => Except.ok (chunk4 p)
  | _ => Except.error Err.unexpectedPlaneCount

/-- The Accumulator's append step as executed by the driver loops:
`let data = get_mono_audio_data(&planes); full_data.extend(data);`. -/
def appendFrame (buf : List F32) (frame : ConvertedFrame) : Except Err (List F32) :=
  match get_mono_audio_data frame.planes with
  | Except.ok data => Except.ok (buf ++ data)
  | Except.error e => Except.error e

/-- Audio codec parameters of a stream (`as_audio_codec_parameters`). The
fields are opaque: they are only forwarded to the resampler builder. -/
structure AudioParams where
  channel_layout : Nat
  sample_format : Nat
  sample_rate : Nat
  deriving DecidableEq, Repr

/-- Codec parameters of a stream. In ac-ffmpeg, `is_audio_codec()` holds
exactly when the parameters convert to audio codec parameters, so the
model carries the optional audio parameters and derives the predicate. -/
structure CodecParameters where
  audio : Option AudioParams
  deriving DecidableEq, Repr

/-- `codec_parameters.is_audio_codec()`. -/
def CodecParameters.is_audio_codec (p : CodecParameters) : Bool :=
  p.audio.isSome

/-- A container stream as exposed by the demuxer's stream info. -/
structure Stream where
  codec_parameters : CodecParameters
  deriving DecidableEq, Repr

/-- The `streams.iter().enumerate().find(is_audio_codec)` search, with the
running index made explicit. -/
def findAudioFrom : Nat → List Stream → Option (Nat × Stream)
  | _, [] => none
  | i, s :: rest =>
      if s.codec_parameters.is_audio_codec then some (i, s)
      else findAudioFrom (i + 1) rest

/-- Stream selection in `transcribe`: the first stream whose codec
parameters indicate an audio codec, or the `"no audio stream"` error. -/
def select_audio_stream (streams : List Stream) : Except Err (Nat × Stream) :=
  match findAudioFrom 0 streams with
  | some r => Except.ok r
  | none => Except.error Err.noAudioStream

/-- whisper-rs sampling strategies. The source only uses `Greedy`, but the
enum has a beam-search alternative. -/
inductive SamplingStrategy where
  | Greedy (n_past : Int)
  | BeamSearch (n_past : Int) (beam_width : Int) (n_best : Int)
  deriving DecidableEq, Repr

/-- The whisper engine configuration fields the example touches. -/
structure FullParams where
  strategy : SamplingStrategy
  language : String
  print_special : Bool
  print_progress : Bool
  print_realtime : Bool
  print_timestamps : Bool
  deriving DecidableEq, Repr

/-- `FullParams::new(strategy)` with the whisper.cpp defaults for the
flags the example later assigns. -/
def FullParams.new (strategy : SamplingStrategy) : FullParams :=
  { strategy := strategy
    language := "en"
    print_special := false
    print_progress := true
    print_realtime := false
    print_timestamps := true }

def FullParams.set_language (p : FullParams) (language : String) : FullParams :=
  { p with language := language }

def FullParams.set_print_special (p : FullParams) (b : Bool) : FullParams :=
  { p with print_special := b }

def FullParams.set_print_progress (p : FullParams) (b : Bool) : FullParams :=
  { p with print_progress := b }

def FullParams.set_print_realtime (p : FullParams) (b : Bool) : FullParams :=
  { p with print_realtime := b }

def FullParams.set_print_timestamps (p : FullParams) (b : Bool) : FullParams :=
  { p with print_timestamps := b }

/-- `get_params`: greedy strategy with `n_past = 0`, the requested
language, special-token printing disabled, progress/realtime/timestamp
printing enabled. -/
def get_params (language : String) : FullParams :=
  let params := FullParams.new (SamplingStrategy.Greedy 0)
  let params := params.set_language language
  let params := params.set_print_special false
  let params := params.set_print_progress true
  let params := params.set_print_realtime true
  let params := params.set_print_timestamps true
  params

/-- An external streaming component (ffmpeg `AudioDecoder` or
`AudioResampler`) with state type `σ`, inputs `α` and outputs `β`.
`takeAll` is the semantics of the Rust drain loop
`while let Some(x) = c.take()? { ... }`: the finite list of outputs
currently available, together with the drained state. Every operation may
fail, mirroring the `?` on `push`, `take` and `flush`. -/
structure Machine (σ α β : Type) where
  push : σ → α → Except Err σ
  takeAll : σ → Except Err (List β × σ)
  flush : σ → Except Err σ

/-- Observable events of one pipeline run, used to state the routing and
flush-ordering invariants. -/
inductive Event where
  | pushDecoder (p : Packet)
  | discardPacket (p : Packet)
  | decoderEmit (f : RawFrame)
  | pushResampler (f : RawFrame)
  | decoderFlush
  | resamplerFlush
  deriving DecidableEq, Repr

/-- Innermost loop body: drain the resampler's available frames into the
sample buffer (`while let Some(frame) = resampler.take()? { extend }`). -/
def accumFrames (buf : List F32) : List ConvertedFrame → Except Err (List F32)
  | [] => Except.ok buf
  | f :: fs =>
      match appendFrame buf f with
      | Except.ok buf1 => accumFrames buf1 fs
      | Except.error e => Except.error e

/-- Route one decoder-emitted frame: push it into the resampler, then
drain the resampler's available converted frames into the buffer. -/
def processRawFrame {σr : Type} (R : Machine σr RawFrame ConvertedFrame)
    (sr : σr) (buf : List F32) (f : RawFrame) :
    Except Err (σr × List F32 × List Event) :=
  match R.push sr f with
  | Except.error e => Except.error e
  | Except.ok sr1 =>
      match R.takeAll sr1 with
      | Except.error e => Except.error e
      | Except.ok (frames, sr2) =>
          match accumFrames buf frames with
          | Except.error e => Except.error e
          | Except.ok buf1 =>
              Except.ok (sr2, buf1, [Event.decoderEmit f, Event.pushResampler f])

/-- The `while let Some(frame) = decoder.take()?` loop body applied to the
list of frames the decoder made available. -/
def processRawFrames {σr : Type} (R : Machine σr RawFrame ConvertedFrame)
    (sr : σr) (buf : List F32) :
    List RawFrame → Except Err (σr × List F32 × List Event)
  | [] => Except.ok (sr, buf, [])
  | f :: fs =>
      match processRawFrame R sr buf f with
      | Except.error e => Except.error e
      | Except.ok (sr1, buf1, tr1) =>
          match processRawFrames R sr1 buf1 fs with
          | Except.error e => Except.error e
          | Except.ok (sr2, buf2, tr2) => Except.ok (sr2, buf2, tr1 ++ tr2)

/-- The main reading loop `while let Some(packet) = demuxer.take()?`:
packets of other streams are discarded (`continue`); a matching packet is
pushed into the decoder, whose available frames are routed through the
resampler into the buffer. -/
def readLoop {σd σr : Type} (D : Machine σd Packet RawFrame)
    (R : Machine σr RawFrame ConvertedFrame) (idx : Nat)
    (sd : σd) (sr : σr) (buf : List F32) :
    List Packet → Except Err (σd × σr × List F32 × List Event)
  | [] => Except.ok (sd, sr, buf, [])
  | p :: ps =>
      if p.stream_index = idx then
        match D.push sd p with
        | Except.error e => Except.error e
        | Except.ok sd1 =>
            match D.takeAll sd1 with
            | Except.error e => Except.error e
            | Except.ok (frames, sd2) =>
                match processRawFrames R sr buf frames with
                | Except.error e => Except.error e
                | Except.ok (sr1, buf1, tr1) =>
                    match readLoop D R idx sd2 sr1 buf1 ps with
                    | Except.error e => Except.error e
                    | Except.ok (sd3, sr2, buf2, tr2) =>
                        Except.ok (sd3, sr2, buf2,
                          Event.pushDecoder p :: (tr1 ++ tr2))
      else
        match readLoop D R idx sd sr buf ps with
        | Except.error e => Except.error e
        | Except.ok (sd1, sr1, buf1, tr) =>
            Except.ok (sd1, sr1, buf1, Event.discardPacket p :: tr)

/-- Decoder drain phase: `decoder.flush()?` followed by the same frame
routing loop on the decoder's residual frames. -/
def decoderFlushPhase {σd σr : Type} (D : Machine σd Packet RawFrame)
    (R : Machine σr RawFrame ConvertedFrame) (sd : σd) (sr : σr)
    (buf : List F32) : Except Err (σd × σr × List F32 × List Event) :=
  match D.flush sd with
  | Except.error e => Except.error e
  | Except.ok sd1 =>
      match D.takeAll sd1 with
      | Except.error e => Except.error e
      | Except.ok (frames, sd2) =>
          match processRawFrames R sr buf frames with
          | Except.error e => Except.error e
          | Except.ok (sr1, buf1, tr) =>
              Except.ok (sd2, sr1, buf1, Event.decoderFlush :: tr)

/-- Resampler drain phase: `resampler.flush()?` followed by draining its
residual converted frames into the buffer. -/
def resamplerFlushPhase {σr : Type} (R : Machine σr RawFrame ConvertedFrame)
    (sr : σr) (buf : List F32) :
    Except Err (σr × List F32 × List Event) :=
  match R.flush sr with
  | Except.error e => Except.error e
  | Except.ok sr1 =>
      match R.takeAll sr1 with
      | Except.error e => Except.error e
      | Except.ok (frames, sr2) =>
          match accumFrames buf frames with
          | Except.error e => Except.error e
          | Except.ok buf1 => Except.ok (sr2, buf1, [Event.resamplerFlush])

/-- The three-phase pipeline of `transcribe`: main reading loop, decoder
flush drain, resampler flush drain. Returns the final sample buffer and
the event trace. -/
def runPipeline {σd σr : Type} (D : Machine σd Packet RawFrame)
    (R : Machine σr RawFrame ConvertedFrame) (idx : Nat)
    (packets : List Packet) (sd0 : σd) (sr0 : σr) :
    Except Err (List F32 × List Event) :=
  match readLoop D R idx sd0 sr0 [] packets with
  | Except.error e => Except.error e
  | Except.ok (sd1, sr1, buf1, tr1) =>
      match decoderFlushPhase D R sd1 sr1 buf1 with
      | Except.error e => Except.error e
      | Except.ok (_, sr2, buf2, tr2) =>
          match resamplerFlushPhase R sr2 buf2 with
          | Except.error e => Except.error e
          | Except.ok (_, buf3, tr3) => Except.ok (buf3, tr1 ++ (tr2 ++ tr3))

/-- A whisper result segment: `full_get_segment_text` may fail (modelled
as `none`), `full_get_segment_t0` / `t1` are plain timestamps. -/
structure Segment where
  text : Option String
  t0 : Int
  t1 : Int
  deriving DecidableEq, Repr

/-- The `println!("[{} - {}]: {}", start, end, segment)` line. -/
def formatLine (t0 t1 : Int) (text : String) : String :=
  "[" ++ toString t0 ++ " - " ++ toString t1 ++ "]: " ++ text

/-- The segment loop `for i in 0..num_segments`: read each segment's text
(the `.expect("failed to get segment")` panic becomes
`Err.segmentReadFailure`) and produce its output line. -/
def printSegments : List Segment → Except Err (List String)
  | [] => Except.ok []
  | s :: rest =>
      match s.text with
      | none => Except.error Err.segmentReadFailure
      | some t =>
          match printSegments rest with
          | Except.ok lines => Except.ok (formatLine s.t0 s.t1 t :: lines)
          | Except.error e => Except.error e

/-- `transcribe(input, model, language)`. External collaborators are
parameters: the demuxed stream table and packet list, the decoder and
resampler constructors and machines, the whisper model load (`ctxInit`)
and the engine (`ctx.full` plus the segment table). Returns the printed
lines. -/
def transcribe {σd σr : Type}
    (streams : List Stream) (packets : List Packet)
    (decoderInit : Stream → Except Err σd)
    (ctxInit : Except Err Unit)
    (resamplerInit : AudioParams → Except Err σr)
    (D : Machine σd Packet RawFrame)
    (R : Machine σr RawFrame ConvertedFrame)
    (engine : FullParams → List F32 → Except Err (List Segment))
    (language : String) : Except Err (List String) :=
  match select_audio_stream streams with
  | Except.error e => Except.error e
  | Except.ok (idx, stream) =>
      match stream.codec_parameters.audio with
      | none => Except.error Err.noAudioStream
      | some ap =>
          match decoderInit stream with
          | Except.error e => Except.error e
          | Except.ok sd0 =>
              match ctxInit with
              | Except.error e => Except.error e
              | Except.ok _ =>
                  match resamplerInit ap with
                  | Except.error e => Except.error e
                  | Except.ok sr0 =>
                      match runPipeline D R idx packets sd0 sr0 with
                      | Except.error e => Except.error e
                      | Except.ok (buf, _) =>
                          match engine (get_params language) buf with
                          | Except.error e => Except.error e
                          | Except.ok segs => printSegments segs

/-- Packets recorded as pushed into the decoder in a trace. -/
def decoderPushes (tr : List Event) : List Packet :=
  tr.filterMap fun e =>
    match e with
    | Event.pushDecoder p => some p
    | _ => none

/-- Frames recorded as emitted by the decoder in a trace. -/
def emittedFrames (tr : List Event) : List RawFrame :=
  tr.filterMap fun e =>
    match e with
    | Event.decoderEmit f => some f
    | _ => none

/-- Frames recorded as pushed into the resampler in a trace. -/
def resamplerPushes (tr : List Event) : List RawFrame :=
  tr.filterMap fun e =>
    match e with
    | Event.pushResampler f => some f
    | _ => none

/-- The event block produced when routing a list of decoder-emitted frames
through the resampler. -/
def emitPushEvents : List RawFrame → List Event
  | [] => []
  | f :: fs => Event.decoderEmit f :: Event.pushResampler f :: emitPushEvents fs

/-- Number of printed lines of a successful result (`none` on error). -/
def linesCount : Except Err (List String) → Option Nat
  | Except.ok lines => some lines.length
  | Except.error _ => none

/-- A concrete decoder used to exercise the pipeline: it queues one raw
frame per pushed packet (the packet's payload), emits the queue on
`takeAll`, and holds one final frame (99) that only `flush` releases. -/
def testDecoder : Machine (List RawFrame) Packet RawFrame :=
  Machine.mk
    (fun s p => Except.ok (s ++ [p.payload]))
    (fun s => Except.ok (s, []))
    (fun s => Except.ok (s ++ [99]))

/-- A concrete resampler used to exercise the pipeline: each raw frame `n`
becomes a mono frame with the single 4-byte plane `[n, n, n, n]`, and
`flush` releases one residual frame with plane `[7, 7, 7, 7]`. -/
def testResampler : Machine (List ConvertedFrame) RawFrame ConvertedFrame :=
  Machine.mk
    (fun s f => Except.ok (s ++ [ConvertedFrame.mk [[f, f, f, f]]]))
    (fun s => Except.ok (s, []))
    (fun s => Except.ok (s ++ [ConvertedFrame.mk [[7, 7, 7, 7]]]))

/-- A decoder that never emits a frame. -/
def idleDecoder : Machine Unit Packet RawFrame :=
  Machine.mk
    (fun s _ => Except.ok s)
    (fun s => Except.ok ([], s))
    (fun s => Except.ok s)

/-- A resampler that never emits a frame. -/
def idleResampler : Machine Unit RawFrame ConvertedFrame :=
  Machine.mk
    (fun s _ => Except.ok s)
    (fun s => Except.ok ([], s))
    (fun s => Except.ok s)

/-! ### Helper lemmas -/

lemma chunk4_length : ∀ l : List Nat, (chunk4 l).length = l.length / 4
  | [] => rfl
  | [_] => by simp [chunk4]
  | [_, _] => by simp [chunk4]
  | [_, _, _] => by simp [chunk4]
  | b0 :: b1 :: b2 :: b3 :: rest => by
      have ih := chunk4_length rest
      simp only [chunk4, List.length_cons, ih]
      omega

lemma appendFrame_ok (buf : List F32) (frame : ConvertedFrame) (p : List Nat)
    (h : frame.planes = [p]) : appendFrame buf frame = Except.ok (buf ++ chunk4 p) := by
  simp [appendFrame, get_mono_audio_data, h]

lemma appendFrame_prepend (pre buf b : List F32) (f : ConvertedFrame)
    (h : appendFrame buf f = Except.ok b) :
    appendFrame (pre ++ buf) f = Except.ok (pre ++ b) := by
  unfold appendFrame at h ⊢
  cases hg : get_mono_audio_data f.planes with
  | ok data =>
      rw [hg] at h
      cases h
      simp
  | error e => rw [hg] at h; cases h

lemma accumFrames_prepend (pre : List F32) :
    ∀ (fs : List ConvertedFrame) (buf b : List F32),
      accumFrames buf fs = Except.ok b →
      accumFrames (pre ++ buf) fs = Except.ok (pre ++ b)
  | [], buf, b, h => by
      unfold accumFrames at h ⊢
      cases h
      rfl
  | f :: fs, buf, b, h => by
      unfold accumFrames at h ⊢
      cases ha : appendFrame buf f with
      | ok buf1 =>
          rw [ha] at h
          rw [appendFrame_prepend pre buf buf1 f ha]
          exact accumFrames_prepend pre fs buf1 b h
      | error e => rw [ha] at h; cases h

lemma processRawFrame_prepend {σr : Type} (R : Machine σr RawFrame ConvertedFrame)
    (pre : List F32) (sr : σr) (buf : List F32) (f : RawFrame)
    (sr' : σr) (b : List F32) (tr : List Event)
    (h : processRawFrame R sr buf f = Except.ok (sr', b, tr)) :
    processRawFrame R sr (pre ++ buf) f = Except.ok (sr', pre ++ b, tr) := by
  unfold processRawFrame at h ⊢
  cases hp : R.push sr f with
  | error e => simp [hp] at h
  | ok sr1 =>
      simp only [hp] at h ⊢
      cases ht : R.takeAll sr1 with
      | error e => simp [ht] at h
      | ok out =>
          obtain ⟨frames, sr2⟩ := out
          simp only [ht] at h ⊢
          cases ha : accumFrames buf frames with
          | error e => simp [ha] at h
          | ok buf1 =>
              simp only [ha, Except.ok.injEq, Prod.mk.injEq] at h
              obtain ⟨h1, h2, h3⟩ := h
              subst h1
              subst h2
              subst h3
              rw [accumFrames_prepend pre frames buf buf1 ha]

lemma processRawFrames_prepend {σr : Type} (R : Machine σr RawFrame ConvertedFrame)
    (pre : List F32) :
    ∀ (fs : List RawFrame) (sr : σr) (buf : List F32)
      (sr' : σr) (b : List F32) (tr : List Event),
      processRawFrames R sr buf fs = Except.ok (sr', b, tr) →
      processRawFrames R sr (pre ++ buf) fs = Except.ok (sr', pre ++ b, tr)
  | [], sr, buf, sr', b, tr, h => by
      unfold processRawFrames at h ⊢
      cases h
      rfl
  | f :: fs, sr, buf, sr', b, tr, h => by
      unfold processRawFrames at h ⊢
      cases h1 : processRawFrame R sr buf f with
      | error e => simp [h1] at h
      | ok out =>
          obtain ⟨sr1, buf1, tr1⟩ := out
          simp only [h1] at h
          cases h2 : processRawFrames R sr1 buf1 fs with
          | error e => simp [h2] at h
          | ok out2 =>
              obtain ⟨sr2, buf2, tr2⟩ := out2
              simp only [h2, Except.ok.injEq, Prod.mk.injEq] at h
              obtain ⟨g1, g2, g3⟩ := h
              subst g1
              subst g2
              subst g3
              have h1' := processRawFrame_prepend R pre sr buf f sr1 buf1 tr1 h1
              have h2' := processRawFrames_prepend R pre fs sr1 buf1 sr2 buf2 tr2 h2
              simp [h1', h2']

lemma decoderFlushPhase_prepend {σd σr : Type} (D : Machine σd Packet RawFrame)
    (R : Machine σr RawFrame ConvertedFrame) (pre : List F32)
    (sd : σd) (sr : σr) (buf : List F32)
    (sd' : σd) (sr' : σr) (b : List F32) (tr : List Event)
    (h : decoderFlushPhase D R sd sr buf = Except.ok (sd', sr', b, tr)) :
    decoderFlushPhase D R sd sr (pre ++ buf) = Except.ok (sd', sr', pre ++ b, tr) := by
  unfold decoderFlushPhase at h ⊢
  cases hf : D.flush sd with
  | error e => simp [hf] at h
  | ok sd1 =>
      simp only [hf] at h ⊢
      cases ht : D.takeAll sd1 with
      | error e => simp [ht] at h
      | ok out =>
          obtain ⟨frames, sd2⟩ := out
          simp only [ht] at h ⊢
          cases hp : processRawFrames R sr buf frames with
          | error e => simp [hp] at h
          | ok out2 =>
              obtain ⟨sr1, buf1, tr1⟩ := out2
              simp only [hp, Except.ok.injEq, Prod.mk.injEq] at h
              obtain ⟨g1, g2, g3, g4⟩ := h
              subst g1
              subst g2
              subst g3
              subst g4
              rw [processRawFrames_prepend R pre frames sr buf sr1 buf1 tr1 hp]

lemma resamplerFlushPhase_prepend {σr : Type} (R : Machine σr RawFrame ConvertedFrame)
    (pre : List F32) (sr : σr) (buf : List F32)
    (sr' : σr) (b : List F32) (tr : List Event)
    (h : resamplerFlushPhase R sr buf = Except.ok (sr', b, tr)) :
    resamplerFlushPhase R sr (pre ++ buf) = Except.ok (sr', pre ++ b, tr) := by
  unfold resamplerFlushPhase at h ⊢
  cases hf : R.flush sr with
  | error e => simp [hf] at h
  | ok sr1 =>
      simp only [hf] at h ⊢
      cases ht : R.takeAll sr1 with
      | error e => simp [ht] at h
      | ok out =>
          obtain ⟨frames, sr2⟩ := out
          simp only [ht] at h ⊢
          cases ha : accumFrames buf frames with
          | error e => simp [ha] at h
          | ok buf1 =>
              simp only [ha, Except.ok.injEq, Prod.mk.injEq] at h
              obtain ⟨g1, g2, g3⟩ := h
              subst g1
              subst g2
              subst g3
              rw [accumFrames_prepend pre frames buf buf1 ha]

lemma decoderPushes_append (a b : List Event) :
    decoderPushes (a ++ b) = decoderPushes a ++ decoderPushes b := by
  simp [decoderPushes]

lemma emittedFrames_append (a b : List Event) :
    emittedFrames (a ++ b) = emittedFrames a ++ emittedFrames b := by
  simp [emittedFrames]

lemma resamplerPushes_append (a b : List Event) :
    resamplerPushes (a ++ b) = resamplerPushes a ++ resamplerPushes b := by
  simp [resamplerPushes]

lemma emitPushEvents_decoderPushes :
    ∀ fs : List RawFrame, decoderPushes (emitPushEvents fs) = []
  | [] => rfl
  | f :: fs => by
      have ih := emitPushEvents_decoderPushes fs
      unfold decoderPushes at ih ⊢
      simp only [emitPushEvents, List.filterMap_cons]
      exact ih

lemma emitPushEvents_emittedFrames :
    ∀ fs : List RawFrame, emittedFrames (emitPushEvents fs) = fs
  | [] => rfl
  | f :: fs => by
      have ih := emitPushEvents_emittedFrames fs
      unfold emittedFrames at ih ⊢
      simp only [emitPushEvents, List.filterMap_cons]
      rw [ih]

lemma emitPushEvents_resamplerPushes :
    ∀ fs : List RawFrame, resamplerPushes (emitPushEvents fs) = fs
  | [] => rfl
  | f :: fs => by
      have ih := emitPushEvents_resamplerPushes fs
      unfold resamplerPushes at ih ⊢
      simp only [emitPushEvents, List.filterMap_cons]
      rw [ih]

lemma emitPushEvents_no_flush :
    ∀ fs : List RawFrame, Event.resamplerFlush ∉ emitPushEvents fs
  | [] => by simp [emitPushEvents]
  | f :: fs => by
      simp [emitPushEvents]
      exact emitPushEvents_no_flush fs

lemma processRawFrames_trace {σr : Type} (R : Machine σr RawFrame ConvertedFrame) :
    ∀ (fs : List RawFrame) (sr : σr) (buf : List F32)
      (sr' : σr) (b : List F32) (tr : List Event),
      processRawFrames R sr buf fs = Except.ok (sr', b, tr) →
      tr = emitPushEvents fs
  | [], sr, buf, sr', b, tr, h => by
      unfold processRawFrames at h
      simp only [Except.ok.injEq, Prod.mk.injEq] at h
      obtain ⟨-, -, g⟩ := h
      exact g.symm
  | f :: fs, sr, buf, sr', b, tr, h => by
      unfold processRawFrames at h
      cases h1 : processRawFrame R sr buf f with
      | error e => simp [h1] at h
      | ok out =>
          obtain ⟨sr1, buf1, tr1⟩ := out
          simp only [h1] at h
          cases h2 : processRawFrames R sr1 buf1 fs with
          | error e => simp [h2] at h
          | ok out2 =>
              obtain ⟨sr2, buf2, tr2⟩ := out2
              simp only [h2, Except.ok.injEq, Prod.mk.injEq] at h
              obtain ⟨-, -, g⟩ := h
              have htr1 : tr1 = [Event.decoderEmit f, Event.pushResampler f] := by
                unfold processRawFrame at h1
                cases hp : R.push sr f with
                | error e => simp [hp] at h1
                | ok s1 =>
                    simp only [hp] at h1
                    cases ht : R.takeAll s1 with
                    | error e => simp [ht] at h1
                    | ok out3 =>
                        obtain ⟨frames, s2⟩ := out3
                        simp only [ht] at h1
                        cases ha : accumFrames buf frames with
                        | error e => simp [ha] at h1
                        | ok bb =>
                            simp only [ha, Except.ok.injEq, Prod.mk.injEq] at h1
                            exact h1.2.2.symm
              have htr2 : tr2 = emitPushEvents fs :=
                processRawFrames_trace R fs sr1 buf1 sr2 buf2 tr2 h2
              rw [← g, htr1, htr2]
              rfl

lemma resamplerFlushPhase_trace {σr : Type} (R : Machine σr RawFrame ConvertedFrame)
    (sr : σr) (buf : List F32) (sr' : σr) (b : List F32) (tr : List Event)
    (h : resamplerFlushPhase R sr buf = Except.ok (sr', b, tr)) :
    tr = [Event.resamplerFlush] := by
  unfold resamplerFlushPhase at h
  cases hf : R.flush sr with
  | error e => simp [hf] at h
  | ok sr1 =>
      simp only [hf] at h
      cases ht : R.takeAll sr1 with
      | error e => simp [ht] at h
      | ok out =>
          obtain ⟨frames, sr2⟩ := out
          simp only [ht] at h
          cases ha : accumFrames buf frames with
          | error e => simp [ha] at h
          | ok buf1 =>
              simp only [ha, Except.ok.injEq, Prod.mk.injEq] at h
              exact h.2.2.symm

lemma decoderFlushPhase_trace {σd σr : Type} (D : Machine σd Packet RawFrame)
    (R : Machine σr RawFrame ConvertedFrame) (sd : σd) (sr : σr)
    (buf : List F32) (sd' : σd) (sr' : σr) (b : List F32) (tr : List Event)
    (h : decoderFlushPhase D R sd sr buf = Except.ok (sd', sr', b, tr)) :
    ∃ fs : List RawFrame, tr = Event.decoderFlush :: emitPushEvents fs := by
  unfold decoderFlushPhase at h
  cases hf : D.flush sd with
  | error e => simp [hf] at h
  | ok sd1 =>
      simp only [hf] at h
      cases ht : D.takeAll sd1 with
      | error e => simp [ht] at h
      | ok out =>
          obtain ⟨frames, sd2⟩ := out
          simp only [ht] at h
          cases hp : processRawFrames R sr buf frames with
          | error e => simp [hp] at h
          | ok out2 =>
              obtain ⟨sr1, buf1, tr1⟩ := out2
              simp only [hp, Except.ok.injEq, Prod.mk.injEq] at h
              refine ⟨frames, ?_⟩
              rw [← h.2.2.2]
              rw [processRawFrames_trace R frames sr buf sr1 buf1 tr1 hp]

lemma readLoop_decoderPushes {σd σr : Type} (D : Machine σd Packet RawFrame)
    (R : Machine σr RawFrame ConvertedFrame) (idx : Nat) :
    ∀ (ps : List Packet) (sd : σd) (sr : σr) (buf : List F32)
      (sd' : σd) (sr' : σr) (b : List F32) (tr : List Event),
      readLoop D R idx sd sr buf ps = Except.ok (sd', sr', b, tr) →
      decoderPushes tr = ps.filter (fun p => p.stream_index == idx)
  | [], sd, sr, buf, sd', sr', b, tr, h => by
      unfold readLoop at h
      simp only [Except.ok.injEq, Prod.mk.injEq] at h
      rw [← h.2.2.2]
      rfl
  | p :: ps, sd, sr, buf, sd', sr', b, tr, h => by
      unfold readLoop at h
      by_cases hidx : p.stream_index = idx
      · rw [if_pos hidx] at h
        cases h1 : D.push sd p with
        | error e => simp [h1] at h
        | ok sd1 =>
            simp only [h1] at h
            cases h2 : D.takeAll sd1 with
            | error e => simp [h2] at h
            | ok out =>
                obtain ⟨frames, sd2⟩ := out
                simp only [h2] at h
                cases h3 : processRawFrames R sr buf frames with
                | error e => simp [h3] at h
                | ok out2 =>
                    obtain ⟨sr1, buf1, tr1⟩ := out2
                    simp only [h3] at h
                    cases h4 : readLoop D R idx sd2 sr1 buf1 ps with
                    | error e => simp [h4] at h
                    | ok out3 =>
                        obtain ⟨sd3, sr2, buf2, tr2⟩ := out3
                        simp only [h4, Except.ok.injEq, Prod.mk.injEq] at h
                        obtain ⟨-, -, -, g⟩ := h
                        rw [← g]
                        have e1 : tr1 = emitPushEvents frames :=
                          processRawFrames_trace R frames sr buf sr1 buf1 tr1 h3
                        have e2 : decoderPushes tr2 =
                            ps.filter (fun q => q.stream_index == idx) :=
                          readLoop_decoderPushes D R idx ps sd2 sr1 buf1
                            sd3 sr2 buf2 tr2 h4
                        have hcons : decoderPushes
                            (Event.pushDecoder p :: (tr1 ++ tr2)) =
                            p :: (decoderPushes tr1 ++ decoderPushes tr2) := by
                          unfold decoderPushes
                          simp [List.filterMap_cons]
                        rw [hcons, e1, emitPushEvents_decoderPushes, e2]
                        simp [List.filter_cons, hidx]
      · rw [if_neg hidx] at h
        cases h1 : readLoop D R idx sd sr buf ps with
        | error e => simp [h1] at h
        | ok out =>
            obtain ⟨sd1, sr1, buf1, tr1⟩ := out
            simp only [h1, Except.ok.injEq, Prod.mk.injEq] at h
            obtain ⟨-, -, -, g⟩ := h
            rw [← g]
            have e2 : decoderPushes tr1 =
                ps.filter (fun q => q.stream_index == idx) :=
              readLoop_decoderPushes D R idx ps sd sr buf sd1 sr1 buf1 tr1 h1
            have hcons : decoderPushes (Event.discardPacket p :: tr1) =
                decoderPushes tr1 := by
              unfold decoderPushes
              simp [List.filterMap_cons]
            rw [hcons, e2]
            simp [List.filter_cons, hidx]

lemma readLoop_trace_props {σd σr : Type} (D : Machine σd Packet RawFrame)
    (R : Machine σr RawFrame ConvertedFrame) (idx : Nat) :
    ∀ (ps : List Packet) (sd : σd) (sr : σr) (buf : List F32)
      (sd' : σd) (sr' : σr) (b : List F32) (tr : List Event),
      readLoop D R idx sd sr buf ps = Except.ok (sd', sr', b, tr) →
      emittedFrames tr = resamplerPushes tr ∧ Event.resamplerFlush ∉ tr
  | [], sd, sr, buf, sd', sr', b, tr, h => by
      unfold readLoop at h
      simp only [Except.ok.injEq, Prod.mk.injEq] at h
      rw [← h.2.2.2]
      exact ⟨rfl, by simp⟩
  | p :: ps, sd, sr, buf, sd', sr', b, tr, h => by
      unfold readLoop at h
      by_cases hidx : p.stream_index = idx
      · rw [if_pos hidx] at h
        cases h1 : D.push sd p with
        | error e => simp [h1] at h
        | ok sd1 =>
            simp only [h1] at h
            cases h2 : D.takeAll sd1 with
            | error e => simp [h2] at h
            | ok out =>
                obtain ⟨frames, sd2⟩ := out
                simp only [h2] at h
                cases h3 : processRawFrames R sr buf frames with
                | error e => simp [h3] at h
                | ok out2 =>
                    obtain ⟨sr1, buf1, tr1⟩ := out2
                    simp only [h3] at h
                    cases h4 : readLoop D R idx sd2 sr1 buf1 ps with
                    | error e => simp [h4] at h
                    | ok out3 =>
                        obtain ⟨sd3, sr2, buf2, tr2⟩ := out3
                        simp only [h4, Except.ok.injEq, Prod.mk.injEq] at h
                        obtain ⟨-, -, -, g⟩ := h
                        rw [← g]
                        have e1 : tr1 = emitPushEvents frames :=
                          processRawFrames_trace R frames sr buf sr1 buf1 tr1 h3
                        obtain ⟨ih1, ih2⟩ :=
                          readLoop_trace_props D R idx ps sd2 sr1 buf1
                            sd3 sr2 buf2 tr2 h4
                        constructor
                        · have hem : emittedFrames
                              (Event.pushDecoder p :: (tr1 ++ tr2)) =
                              emittedFrames tr1 ++ emittedFrames tr2 := by
                            unfold emittedFrames
                            simp [List.filterMap_cons]
                          have hpu : resamplerPushes
                              (Event.pushDecoder p :: (tr1 ++ tr2)) =
                              resamplerPushes tr1 ++ resamplerPushes tr2 := by
                            unfold resamplerPushes
                            simp [List.filterMap_cons]
                          rw [hem, hpu, e1, emitPushEvents_emittedFrames,
                            emitPushEvents_resamplerPushes, ih1]
                        · intro hmem
                          rcases List.mem_cons.mp hmem with hc | hc
                          · cases hc
                          · rcases List.mem_append.mp hc with hc2 | hc2
                            · rw [e1] at hc2
                              exact emitPushEvents_no_flush frames hc2
                            · exact ih2 hc2
      · rw [if_neg hidx] at h
        cases h1 : readLoop D R idx sd sr buf ps with
        | error e => simp [h1] at h
        | ok out =>
            obtain ⟨sd1, sr1, buf1, tr1⟩ := out
            simp only [h1, Except.ok.injEq, Prod.mk.injEq] at h
            obtain ⟨-, -, -, g⟩ := h
            rw [← g]
            obtain ⟨ih1, ih2⟩ :=
              readLoop_trace_props D R idx ps sd sr buf sd1 sr1 buf1 tr1 h1
            constructor
            · have hem : emittedFrames (Event.discardPacket p :: tr1) =
                  emittedFrames tr1 := by
                unfold emittedFrames
                simp [List.filterMap_cons]
              have hpu : resamplerPushes (Event.discardPacket p :: tr1) =
                  resamplerPushes tr1 := by
                unfold resamplerPushes
                simp [List.filterMap_cons]
              rw [hem, hpu, ih1]
            · intro hmem
              rcases List.mem_cons.mp hmem with hc | hc
              · cases hc
              · exact ih2 hc

lemma mem_decoderPushes (p : Packet) (tr : List Event) :
    p ∈ decoderPushes tr ↔ Event.pushDecoder p ∈ tr := by
  unfold decoderPushes
  rw [List.mem_filterMap]
  constructor
  · rintro ⟨e, he, hsome⟩
    cases e with
    | pushDecoder q =>
        simp only [Option.some.injEq] at hsome
        rw [hsome] at he
        exact he
    | discardPacket q => exact Option.noConfusion hsome
    | decoderEmit f => exact Option.noConfusion hsome
    | pushResampler f => exact Option.noConfusion hsome
    | decoderFlush => exact Option.noConfusion hsome
    | resamplerFlush => exact Option.noConfusion hsome
  · intro h
    exact ⟨Event.pushDecoder p, h, rfl⟩

lemma findAudioFrom_none :
    ∀ (streams : List Stream) (k : Nat),
      (∀ s ∈ streams, s.codec_parameters.is_audio_codec = false) →
      findAudioFrom k streams = none
  | [], _, _ => rfl
  | s :: rest, k, h => by
      unfold findAudioFrom
      rw [h s (List.mem_cons_self s rest)]
      simp only [Bool.false_eq_true, if_false]
      exact findAudioFrom_none rest (k + 1) fun s' hs' => h s' (List.mem_cons_of_mem s hs')

lemma findAudioFrom_spec :
    ∀ (streams : List Stream) (k i : Nat) (st : Stream),
      findAudioFrom k streams = some (i, st) →
      ∃ d, i = k + d ∧ streams.get? d = some st ∧
        st.codec_parameters.is_audio_codec = true ∧
        ∀ j, j < d → ∀ st', streams.get? j = some st' →
          st'.codec_parameters.is_audio_codec = false
  | [], k, i, st, h => by simp [findAudioFrom] at h
  | s :: rest, k, i, st, h => by
      unfold findAudioFrom at h
      by_cases hb : s.codec_parameters.is_audio_codec = true
      · rw [if_pos hb] at h
        simp only [Option.some.injEq, Prod.mk.injEq] at h
        obtain ⟨hk, hs⟩ := h
        subst hk
        subst hs
        exact ⟨0, by omega, rfl, hb, fun j hj => by omega⟩
      · rw [if_neg hb] at h
        obtain ⟨d, hd, hget, haud, hmin⟩ := findAudioFrom_spec rest (k + 1) i st h
        refine ⟨d + 1, by omega, by simpa using hget, haud, ?_⟩
        intro j hj st' hst'
        cases j with
        | zero =>
            simp only [List.get?] at hst'
            cases hst'
            exact Bool.not_eq_true _ ▸ Bool.eq_false_iff.mpr hb
        | succ j' =>
            exact hmin j' (by omega) st' (by simpa using hst')

lemma printSegments_length :
    ∀ segs : List Segment,
      (∀ s ∈ segs, s.text.isSome = true) →
      linesCount (printSegments segs) = some segs.length
  | [], _ => rfl
  | s :: rest, h => by
      have hs : s.text.isSome = true := h s (List.mem_cons_self s rest)
      cases ht : s.text with
      | none => rw [ht] at hs; cases hs
      | some t =>
          have ih := printSegments_length rest
            fun s' hs' => h s' (List.mem_cons_of_mem s hs')
          unfold printSegments
          rw [ht]
          cases hp : printSegments rest with
          | error e => rw [hp] at ih; cases ih
          | ok lines =>
              rw [hp] at ih
              unfold linesCount at ih ⊢
              simp only [Option.some.injEq] at ih
              simp [ih]

/-! ### Claim theorems -/

/-- C1: for every converted frame whose channel-plane count is not exactly
one, the Accumulator's append operation fails with
`Err.unexpectedPlaneCount` (the `assert!(planes.len() == 1)` abort) and
the sample buffer is left unmodified: no successor buffer is produced, so
no partial append occurs. -/
theorem spec_c1 (buf : List F32) (frame : ConvertedFrame)
    (h : frame.planes.length ≠ 1) :
    appendFrame buf frame = Except.error Err.unexpectedPlaneCount := by
  obtain ⟨planes⟩ := frame
  cases planes with
  | nil => rfl
  | cons p rest =>
      cases rest with
      | nil => simp at h
      | cons q rest2 => rfl

/-- C1 witness: a two-plane frame is rejected with
`Err.unexpectedPlaneCount` and yields no buffer. -/
theorem spec_c1_witness :
    (ConvertedFrame.mk [[1, 2, 3, 4], [5, 6, 7, 8]]).planes.length ≠ 1 ∧
    appendFrame [] (ConvertedFrame.mk [[1, 2, 3, 4], [5, 6, 7, 8]]) =
      Except.error Err.unexpectedPlaneCount :=
  ⟨by decide,
   spec_c1 [] (ConvertedFrame.mk [[1, 2, 3, 4], [5, 6, 7, 8]]) (by decide)⟩

/-- C2 counterexample: the claim says a single plane whose byte length is
not a multiple of 4 makes append fail with `Err.malformedFrame`; but on a
5-byte plane the source performs no such validation — it accumulates the
one complete sample and silently ignores the trailing byte. -/
theorem spec_c2_counterexample :
    appendFrame [] (ConvertedFrame.mk [[0, 0, 128, 63, 0]]) =
      Except.ok [F32.mk 0 0 128 63] ∧
    appendFrame [] (ConvertedFrame.mk [[0, 0, 128, 63, 0]]) ≠
      Except.error Err.malformedFrame := by
  constructor
  · rfl
  · intro h
    have hok : appendFrame [] (ConvertedFrame.mk [[0, 0, 128, 63, 0]]) =
        Except.ok [F32.mk 0 0 128 63] := rfl
    rw [hok] at h
    exact Except.noConfusion h

/-- C2 (amended): for every converted frame with a single plane whose byte
length L is not a multiple of 4, append does not fail: it appends the
`L / 4` complete 4-byte samples and silently drops the trailing
`L mod 4` bytes. -/
theorem spec_c2 (buf : List F32) (p : List Nat) (_h : p.length % 4 ≠ 0) :
    appendFrame buf (ConvertedFrame.mk [p]) = Except.ok (buf ++ chunk4 p) ∧
    (chunk4 p).length = p.length / 4 :=
  ⟨appendFrame_ok buf (ConvertedFrame.mk [p]) p rfl, chunk4_length p⟩

/-- C2 (amended) witness: the 5-byte plane is accepted and contributes
exactly `5 / 4 = 1` sample. -/
theorem spec_c2_witness :
    ([0, 0, 128, 63, 0] : List Nat).length % 4 ≠ 0 ∧
    (appendFrame [] (ConvertedFrame.mk [[0, 0, 128, 63, 0]]) =
        Except.ok ([] ++ chunk4 [0, 0, 128, 63, 0]) ∧
      (chunk4 ([0, 0, 128, 63, 0] : List Nat)).length =
        ([0, 0, 128, 63, 0] : List Nat).length / 4) :=
  ⟨by decide, spec_c2 [] [0, 0, 128, 63, 0] (by decide)⟩

/-- C7: for every converted frame accepted by the Accumulator (exactly one
plane, of byte length L), append succeeds, preserves all previously
accumulated samples, appends the plane's 32-bit samples in order, and
grows the buffer by exactly `L / 4`. -/
theorem spec_c7 (buf : List F32) (frame : ConvertedFrame) (p : List Nat)
    (h : frame.planes = [p]) :
    appendFrame buf frame = Except.ok (buf ++ chunk4 p) ∧
    (buf ++ chunk4 p).length = buf.length + p.length / 4 := by
  refine ⟨appendFrame_ok buf frame p h, ?_⟩
  simp [chunk4_length]

/-- C7 witness: an 8-byte plane appended to a one-sample buffer gives the
prior sample followed by the plane's two samples in order. -/
theorem spec_c7_witness :
    (ConvertedFrame.mk [[1, 2, 3, 4, 5, 6, 7, 8]]).planes =
      [[1, 2, 3, 4, 5, 6, 7, 8]] ∧
    (appendFrame [F32.mk 9 9 9 9] (ConvertedFrame.mk [[1, 2, 3, 4, 5, 6, 7, 8]]) =
        Except.ok ([F32.mk 9 9 9 9] ++ chunk4 [1, 2, 3, 4, 5, 6, 7, 8]) ∧
      ([F32.mk 9 9 9 9] ++ chunk4 [1, 2, 3, 4, 5, 6, 7, 8]).length =
        [F32.mk 9 9 9 9].length + ([1, 2, 3, 4, 5, 6, 7, 8] : List Nat).length / 4) :=
  ⟨rfl, spec_c7 [F32.mk 9 9 9 9] (ConvertedFrame.mk [[1, 2, 3, 4, 5, 6, 7, 8]])
    [1, 2, 3, 4, 5, 6, 7, 8] rfl⟩

/-- C8: if any segment index in range has an unreadable segment text, the
segment loop fails with the fatal `Err.segmentReadFailure` (the
`.expect("failed to get segment")` abort) instead of skipping the segment
and continuing. -/
theorem spec_c8 :
    ∀ (segs : List Segment) (i : Nat) (s : Segment),
      segs.get? i = some s → s.text = none →
      printSegments segs = Except.error Err.segmentReadFailure
  | [], i, s, h, _ => by simp at h
  | s0 :: rest, 0, s, h, hn => by
      simp only [List.get?, Option.some.injEq] at h
      unfold printSegments
      rw [h, hn]
  | s0 :: rest, i + 1, s, h, hn => by
      have ih := spec_c8 rest i s (by simpa using h) hn
      unfold printSegments
      cases ht : s0.text with
      | none => rfl
      | some t => rw [ih]

/-- C8 witness: a two-segment result whose second segment is unreadable
aborts the whole call. -/
theorem spec_c8_witness :
    ([Segment.mk (some "a") 0 1, Segment.mk none 1 2] : List Segment).get? 1 =
      some (Segment.mk none 1 2) ∧
    (Segment.mk none 1 2).text = none ∧
    printSegments [Segment.mk (some "a") 0 1, Segment.mk none 1 2] =
      Except.error Err.segmentReadFailure :=
  ⟨rfl, rfl,
   spec_c8 [Segment.mk (some "a") 0 1, Segment.mk none 1 2] 1
     (Segment.mk none 1 2) rfl rfl⟩

/-- C9: for every language argument, the engine configuration built by
`get_params` uses the greedy strategy with `n_past = 0`, sets the target
language to the argument, disables special-token printing, and enables
the progress/realtime/timestamp print flags that are passed through to
the engine. -/
theorem spec_c9 (language : String) :
    get_params language =
      FullParams.mk (SamplingStrategy.Greedy 0) language false true true true :=
  rfl

/-- C6: if no stream of the container has an audio codec, `transcribe`
fails with `Err.noAudioStream` (so no sample buffer is ever produced);
and whenever stream selection succeeds, the selected stream is the first
stream whose codec parameters indicate an audio codec. -/
theorem spec_c6 {σd σr : Type}
    (streams : List Stream) (packets : List Packet)
    (decoderInit : Stream → Except Err σd) (ctxInit : Except Err Unit)
    (resamplerInit : AudioParams → Except Err σr)
    (D : Machine σd Packet RawFrame)
    (R : Machine σr RawFrame ConvertedFrame)
    (engine : FullParams → List F32 → Except Err (List Segment))
    (language : String) :
    ((∀ s ∈ streams, s.codec_parameters.is_audio_codec = false) →
      transcribe streams packets decoderInit ctxInit resamplerInit D R
        engine language = Except.error Err.noAudioStream) ∧
    (∀ i st, select_audio_stream streams = Except.ok (i, st) →
      streams.get? i = some st ∧
      st.codec_parameters.is_audio_codec = true ∧
      ∀ j, j < i → ∀ st', streams.get? j = some st' →
        st'.codec_parameters.is_audio_codec = false) := by
  constructor
  · intro hall
    have hsel : select_audio_stream streams = Except.error Err.noAudioStream := by
      unfold select_audio_stream
      rw [findAudioFrom_none streams 0 hall]
    unfold transcribe
    rw [hsel]
  · intro i st hsel
    unfold select_audio_stream at hsel
    cases hf : findAudioFrom 0 streams with
    | none => rw [hf] at hsel; exact Except.noConfusion hsel
    | some r =>
        obtain ⟨i0, st0⟩ := r
        rw [hf] at hsel
        simp only [Except.ok.injEq, Prod.mk.injEq] at hsel
        obtain ⟨hi, hst⟩ := hsel
        subst hi
        subst hst
        obtain ⟨d, hd, hget, haud, hmin⟩ :=
          findAudioFrom_spec streams 0 i0 st0 hf
        have hdi : d = i0 := by omega
        subst hdi
        exact ⟨hget, haud, hmin⟩

/-- C6 witness: a container whose streams are all non-audio is rejected
with `Err.noAudioStream`, and in a container whose second stream is the
first audio stream, selection picks exactly that stream. -/
theorem spec_c6_witness :
    transcribe [Stream.mk (CodecParameters.mk none)] []
      (fun _ => Except.ok ()) (Except.ok ()) (fun _ => Except.ok ())
      idleDecoder idleResampler (fun _ _ => Except.ok []) "en" =
      Except.error Err.noAudioStream ∧
    ([Stream.mk (CodecParameters.mk none),
      Stream.mk (CodecParameters.mk (some (AudioParams.mk 2 3 44100)))].get? 1 =
        some (Stream.mk (CodecParameters.mk (some (AudioParams.mk 2 3 44100)))) ∧
      (Stream.mk (CodecParameters.mk
        (some (AudioParams.mk 2 3 44100)))).codec_parameters.is_audio_codec = true) :=
  ⟨(spec_c6 [Stream.mk (CodecParameters.mk none)] []
      (fun _ => Except.ok ()) (Except.ok ()) (fun _ => Except.ok ())
      idleDecoder idleResampler (fun _ _ => Except.ok []) "en").1 (by decide),
   ((spec_c6 [Stream.mk (CodecParameters.mk none),
        Stream.mk (CodecParameters.mk (some (AudioParams.mk 2 3 44100)))] []
      (fun _ => Except.ok ()) (Except.ok ()) (fun _ => Except.ok ())
      idleDecoder idleResampler (fun _ _ => Except.ok []) "en").2 1
      (Stream.mk (CodecParameters.mk (some (AudioParams.mk 2 3 44100)))) rfl).1,
   ((spec_c6 [Stream.mk (CodecParameters.mk none),
        Stream.mk (CodecParameters.mk (some (AudioParams.mk 2 3 44100)))] []
      (fun _ => Except.ok ()) (Except.ok ()) (fun _ => Except.ok ())
      idleDecoder idleResampler (fun _ _ => Except.ok []) "en").2 1
      (Stream.mk (CodecParameters.mk (some (AudioParams.mk 2 3 44100)))) rfl).2.1⟩

/-- C3: on a successful run, the final sample buffer is exactly the
concatenation, in this order, of the samples accumulated during the
normal reading loop, then those produced by draining after decoder flush,
then those produced by draining after resampler flush; and `transcribe`
hands exactly this post-flush buffer to the recognition engine. -/
theorem spec_c3 {σd σr : Type}
    (streams : List Stream) (packets : List Packet)
    (decoderInit : Stream → Except Err σd) (ctxInit : Except Err Unit)
    (resamplerInit : AudioParams → Except Err σr)
    (D : Machine σd Packet RawFrame)
    (R : Machine σr RawFrame ConvertedFrame)
    (engine : FullParams → List F32 → Except Err (List Segment))
    (language : String) (idx : Nat) (stream : Stream) (ap : AudioParams)
    (sd0 sd1 sd2 : σd) (sr0 sr1 sr2 sr3 : σr)
    (A B C : List F32) (tr1 tr2 tr3 : List Event)
    (hsel : select_audio_stream streams = Except.ok (idx, stream))
    (hap : stream.codec_parameters.audio = some ap)
    (hdec : decoderInit stream = Except.ok sd0)
    (hctx : ctxInit = Except.ok ())
    (hres : resamplerInit ap = Except.ok sr0)
    (h1 : readLoop D R idx sd0 sr0 [] packets = Except.ok (sd1, sr1, A, tr1))
    (h2 : decoderFlushPhase D R sd1 sr1 [] = Except.ok (sd2, sr2, B, tr2))
    (h3 : resamplerFlushPhase R sr2 [] = Except.ok (sr3, C, tr3)) :
    runPipeline D R idx packets sd0 sr0 =
      Except.ok (A ++ B ++ C, tr1 ++ (tr2 ++ tr3)) ∧
    transcribe streams packets decoderInit ctxInit resamplerInit D R
        engine language =
      (match engine (get_params language) (A ++ B ++ C) with
       | Except.error e => Except.error e
       | Except.ok segs => printSegments segs) := by
  have h2' : decoderFlushPhase D R sd1 sr1 A = Except.ok (sd2, sr2, A ++ B, tr2) := by
    have hp := decoderFlushPhase_prepend D R A sd1 sr1 [] sd2 sr2 B tr2 h2
    rw [List.append_nil] at hp
    exact hp
  have h3' : resamplerFlushPhase R sr2 (A ++ B) =
      Except.ok (sr3, A ++ B ++ C, tr3) := by
    have hp := resamplerFlushPhase_prepend R (A ++ B) sr2 [] sr3 C tr3 h3
    rw [List.append_nil] at hp
    exact hp
  have hrun : runPipeline D R idx packets sd0 sr0 =
      Except.ok (A ++ B ++ C, tr1 ++ (tr2 ++ tr3)) := by
    unfold runPipeline
    rw [h1]
    simp only [h2', h3']
  refine ⟨hrun, ?_⟩
  unfold transcribe
  rw [hsel]
  simp only [hap, hdec, hctx, hres, hrun]

/-- C3 witness: a concrete run with a buffering decoder and resampler in
which all three phases contribute samples: the main loop yields the
samples of packets 10 and 30, decoder flush yields frame 99's sample,
resampler flush yields the residual sample 7, in exactly this order. -/
theorem spec_c3_witness :
    readLoop testDecoder testResampler 1 [] [] []
        [Packet.mk 1 10, Packet.mk 0 20, Packet.mk 1 30] =
      Except.ok ([], [],
        [F32.mk 10 10 10 10, F32.mk 30 30 30 30],
        [Event.pushDecoder (Packet.mk 1 10), Event.decoderEmit 10,
         Event.pushResampler 10, Event.discardPacket (Packet.mk 0 20),
         Event.pushDecoder (Packet.mk 1 30), Event.decoderEmit 30,
         Event.pushResampler 30]) ∧
    decoderFlushPhase testDecoder testResampler [] [] [] =
      Except.ok ([], [], [F32.mk 99 99 99 99],
        [Event.decoderFlush, Event.decoderEmit 99, Event.pushResampler 99]) ∧
    resamplerFlushPhase testResampler [] [] =
      Except.ok ([], [F32.mk 7 7 7 7], [Event.resamplerFlush]) ∧
    runPipeline testDecoder testResampler 1
        [Packet.mk 1 10, Packet.mk 0 20, Packet.mk 1 30] [] [] =
      Except.ok
        ([F32.mk 10 10 10 10, F32.mk 30 30 30 30] ++ [F32.mk 99 99 99 99] ++
            [F32.mk 7 7 7 7],
          [Event.pushDecoder (Packet.mk 1 10), Event.decoderEmit 10,
           Event.pushResampler 10, Event.discardPacket (Packet.mk 0 20),
           Event.pushDecoder (Packet.mk 1 30), Event.decoderEmit 30,
           Event.pushResampler 30] ++
            ([Event.decoderFlush, Event.decoderEmit 99, Event.pushResampler 99] ++
              [Event.resamplerFlush])) :=
  ⟨rfl, rfl, rfl,
   (spec_c3
      [Stream.mk (CodecParameters.mk none),
       Stream.mk (CodecParameters.mk (some (AudioParams.mk 2 3 44100)))]
      [Packet.mk 1 10, Packet.mk 0 20, Packet.mk 1 30]
      (fun _ => Except.ok ([] : List RawFrame)) (Except.ok ())
      (fun _ => Except.ok ([] : List ConvertedFrame))
      testDecoder testResampler (fun _ _ => Except.ok []) "en"
      1 (Stream.mk (CodecParameters.mk (some (AudioParams.mk 2 3 44100))))
      (AudioParams.mk 2 3 44100) [] [] [] [] [] [] []
      [F32.mk 10 10 10 10, F32.mk 30 30 30 30] [F32.mk 99 99 99 99]
      [F32.mk 7 7 7 7]
      [Event.pushDecoder (Packet.mk 1 10), Event.decoderEmit 10,
       Event.pushResampler 10, Event.discardPacket (Packet.mk 0 20),
       Event.pushDecoder (Packet.mk 1 30), Event.decoderEmit 30,
       Event.pushResampler 30]
      [Event.decoderFlush, Event.decoderEmit 99, Event.pushResampler 99]
      [Event.resamplerFlush]
      rfl rfl rfl rfl rfl rfl rfl rfl).1⟩

/-- C4: on a successful run, the packets pushed into the decoder are
exactly the pulled packets whose stream index equals the selected stream's
index, in order; a packet whose index differs is never pushed into the
decoder. -/
theorem spec_c4 {σd σr : Type} (D : Machine σd Packet RawFrame)
    (R : Machine σr RawFrame ConvertedFrame) (idx : Nat)
    (packets : List Packet) (sd0 : σd) (sr0 : σr)
    (buf : List F32) (tr : List Event)
    (h : runPipeline D R idx packets sd0 sr0 = Except.ok (buf, tr)) :
    decoderPushes tr = packets.filter (fun p => p.stream_index == idx) ∧
    ∀ p ∈ packets, p.stream_index ≠ idx → Event.pushDecoder p ∉ tr := by
  unfold runPipeline at h
  cases h1 : readLoop D R idx sd0 sr0 [] packets with
  | error e => simp [h1] at h
  | ok out1 =>
      obtain ⟨sd1, sr1, buf1, tr1⟩ := out1
      simp only [h1] at h
      cases h2 : decoderFlushPhase D R sd1 sr1 buf1 with
      | error e => simp [h2] at h
      | ok out2 =>
          obtain ⟨sd2, sr2, buf2, tr2⟩ := out2
          simp only [h2] at h
          cases h3 : resamplerFlushPhase R sr2 buf2 with
          | error e => simp [h3] at h
          | ok out3 =>
              obtain ⟨sr3, buf3, tr3⟩ := out3
              simp only [h3, Except.ok.injEq, Prod.mk.injEq] at h
              obtain ⟨-, g⟩ := h
              have e1 : decoderPushes tr1 =
                  packets.filter (fun p => p.stream_index == idx) :=
                readLoop_decoderPushes D R idx packets sd0 sr0 []
                  sd1 sr1 buf1 tr1 h1
              obtain ⟨fs2, e2⟩ :=
                decoderFlushPhase_trace D R sd1 sr1 buf1 sd2 sr2 buf2 tr2 h2
              have e3 : tr3 = [Event.resamplerFlush] :=
                resamplerFlushPhase_trace R sr2 buf2 sr3 buf3 tr3 h3
              have hpushes : decoderPushes tr =
                  packets.filter (fun p => p.stream_index == idx) := by
                rw [← g, decoderPushes_append, decoderPushes_append, e1, e2, e3]
                have hflush2 : decoderPushes
                    (Event.decoderFlush :: emitPushEvents fs2) = [] := by
                  unfold decoderPushes
                  simp only [List.filterMap_cons]
                  exact emitPushEvents_decoderPushes fs2
                rw [hflush2]
                simp [decoderPushes]
              refine ⟨hpushes, ?_⟩
              intro p hp hne hmem
              have hmem2 : p ∈ decoderPushes tr := (mem_decoderPushes p tr).mpr hmem
              rw [hpushes] at hmem2
              have := List.of_mem_filter hmem2
              simp only [beq_iff_eq] at this
              exact hne this

/-- C4 witness: in a concrete run on packets for streams 1, 0, 1 with
stream 1 selected, the decoder receives exactly the two stream-1 packets,
and the stream-0 packet is never pushed. -/
theorem spec_c4_witness :
    decoderPushes
        [Event.pushDecoder (Packet.mk 1 10), Event.decoderEmit 10,
         Event.pushResampler 10, Event.discardPacket (Packet.mk 0 20),
         Event.pushDecoder (Packet.mk 1 30), Event.decoderEmit 30,
         Event.pushResampler 30, Event.decoderFlush, Event.decoderEmit 99,
         Event.pushResampler 99, Event.resamplerFlush] =
      ([Packet.mk 1 10, Packet.mk 0 20, Packet.mk 1 30].filter
        (fun p => p.stream_index == 1)) :=
  (spec_c4 testDecoder testResampler 1
    [Packet.mk 1 10, Packet.mk 0 20, Packet.mk 1 30] [] []
    [F32.mk 10 10 10 10, F32.mk 30 30 30 30, F32.mk 99 99 99 99,
     F32.mk 7 7 7 7]
    [Event.pushDecoder (Packet.mk 1 10), Event.decoderEmit 10,
     Event.pushResampler 10, Event.discardPacket (Packet.mk 0 20),
     Event.pushDecoder (Packet.mk 1 30), Event.decoderEmit 30,
     Event.pushResampler 30, Event.decoderFlush, Event.decoderEmit 99,
     Event.pushResampler 99, Event.resamplerFlush] rfl).1

/-- C5: on a successful run, the resampler flush is the single last event
of the trace, and before it every frame the decoder emitted — in the main
loop or in the decoder-flush drain — has been pushed into the resampler,
in the same order; the resampler is never flushed while an emitted frame
remains unpushed. -/
theorem spec_c5 {σd σr : Type} (D : Machine σd Packet RawFrame)
    (R : Machine σr RawFrame ConvertedFrame) (idx : Nat)
    (packets : List Packet) (sd0 : σd) (sr0 : σr)
    (buf : List F32) (tr : List Event)
    (h : runPipeline D R idx packets sd0 sr0 = Except.ok (buf, tr)) :
    tr = tr.dropLast ++ [Event.resamplerFlush] ∧
    Event.resamplerFlush ∉ tr.dropLast ∧
    emittedFrames tr.dropLast = resamplerPushes tr.dropLast := by
  unfold runPipeline at h
  cases h1 : readLoop D R idx sd0 sr0 [] packets with
  | error e => simp [h1] at h
  | ok out1 =>
      obtain ⟨sd1, sr1, buf1, tr1⟩ := out1
      simp only [h1] at h
      cases h2 : decoderFlushPhase D R sd1 sr1 buf1 with
      | error e => simp [h2] at h
      | ok out2 =>
          obtain ⟨sd2, sr2, buf2, tr2⟩ := out2
          simp only [h2] at h
          cases h3 : resamplerFlushPhase R sr2 buf2 with
          | error e => simp [h3] at h
          | ok out3 =>
              obtain ⟨sr3, buf3, tr3⟩ := out3
              simp only [h3, Except.ok.injEq, Prod.mk.injEq] at h
              obtain ⟨-, g⟩ := h
              obtain ⟨e1a, e1b⟩ :=
                readLoop_trace_props D R idx packets sd0 sr0 []
                  sd1 sr1 buf1 tr1 h1
              obtain ⟨fs2, e2⟩ :=
                decoderFlushPhase_trace D R sd1 sr1 buf1 sd2 sr2 buf2 tr2 h2
              have e3 : tr3 = [Event.resamplerFlush] :=
                resamplerFlushPhase_trace R sr2 buf2 sr3 buf3 tr3 h3
              have htr : tr = (tr1 ++ tr2) ++ [Event.resamplerFlush] := by
                rw [← g, e3, List.append_assoc]
              have hdrop : tr.dropLast = tr1 ++ tr2 := by
                rw [htr]
                exact List.dropLast_concat
              have hnoflush2 : Event.resamplerFlush ∉ tr2 := by
                rw [e2]
                intro hmem
                rcases List.mem_cons.mp hmem with hc | hc
                · cases hc
                · exact emitPushEvents_no_flush fs2 hc
              have hem2 : emittedFrames tr2 = resamplerPushes tr2 := by
                rw [e2]
                have ha : emittedFrames
                    (Event.decoderFlush :: emitPushEvents fs2) =
                    emittedFrames (emitPushEvents fs2) := by
                  unfold emittedFrames
                  simp [List.filterMap_cons]
                have hb : resamplerPushes
                    (Event.decoderFlush :: emitPushEvents fs2) =
                    resamplerPushes (emitPushEvents fs2) := by
                  unfold resamplerPushes
                  simp [List.filterMap_cons]
                rw [ha, hb, emitPushEvents_emittedFrames,
                  emitPushEvents_resamplerPushes]
              refine ⟨?_, ?_, ?_⟩
              · rw [hdrop, htr]
              · rw [hdrop]
                intro hmem
                rcases List.mem_append.mp hmem with hc | hc
                · exact e1b hc
                · exact hnoflush2 hc
              · rw [hdrop, emittedFrames_append, resamplerPushes_append,
                  e1a, hem2]

/-- C5 witness: in the concrete run, the resampler-flush event is last,
and before it the emitted frames 10, 30, 99 are each pushed into the
resampler, in order. -/
theorem spec_c5_witness :
    ([Event.pushDecoder (Packet.mk 1 10), Event.decoderEmit 10,
      Event.pushResampler 10, Event.discardPacket (Packet.mk 0 20),
      Event.pushDecoder (Packet.mk 1 30), Event.decoderEmit 30,
      Event.pushResampler 30, Event.decoderFlush, Event.decoderEmit 99,
      Event.pushResampler 99, Event.resamplerFlush] : List Event) =
      ([Event.pushDecoder (Packet.mk 1 10), Event.decoderEmit 10,
        Event.pushResampler 10, Event.discardPacket (Packet.mk 0 20),
        Event.pushDecoder (Packet.mk 1 30), Event.decoderEmit 30,
        Event.pushResampler 30, Event.decoderFlush, Event.decoderEmit 99,
        Event.pushResampler 99, Event.resamplerFlush] : List Event).dropLast ++
        [Event.resamplerFlush] ∧
    Event.resamplerFlush ∉
      ([Event.pushDecoder (Packet.mk 1 10), Event.decoderEmit 10,
        Event.pushResampler 10, Event.discardPacket (Packet.mk 0 20),
        Event.pushDecoder (Packet.mk 1 30), Event.decoderEmit 30,
        Event.pushResampler 30, Event.decoderFlush, Event.decoderEmit 99,
        Event.pushResampler 99, Event.resamplerFlush] : List Event).dropLast ∧
    emittedFrames
        ([Event.pushDecoder (Packet.mk 1 10), Event.decoderEmit 10,
          Event.pushResampler 10, Event.discardPacket (Packet.mk 0 20),
          Event.pushDecoder (Packet.mk 1 30), Event.decoderEmit 30,
          Event.pushResampler 30, Event.decoderFlush, Event.decoderEmit 99,
          Event.pushResampler 99, Event.resamplerFlush] : List Event).dropLast =
      resamplerPushes
        ([Event.pushDecoder (Packet.mk 1 10), Event.decoderEmit 10,
          Event.pushResampler 10, Event.discardPacket (Packet.mk 0 20),
          Event.pushDecoder (Packet.mk 1 30), Event.decoderEmit 30,
          Event.pushResampler 30, Event.decoderFlush, Event.decoderEmit 99,
          Event.pushResampler 99, Event.resamplerFlush] : List Event).dropLast :=
  spec_c5 testDecoder testResampler 1
    [Packet.mk 1 10, Packet.mk 0 20, Packet.mk 1 30] [] []
    [F32.mk 10 10 10 10, F32.mk 30 30 30 30, F32.mk 99 99 99 99,
     F32.mk 7 7 7 7]
    [Event.pushDecoder (Packet.mk 1 10), Event.decoderEmit 10,
     Event.pushResampler 10, Event.discardPacket (Packet.mk 0 20),
     Event.pushDecoder (Packet.mk 1 30), Event.decoderEmit 30,
     Event.pushResampler 30, Event.decoderFlush, Event.decoderEmit 99,
     Event.pushResampler 99, Event.resamplerFlush] rfl

/-- C10: when the container does hold an audio stream but the pipeline
accumulates zero samples, `transcribe` does not error at the accumulation
stage: it invokes the recognition engine on the empty sample buffer and
prints one output line per segment the engine reports (possibly zero). -/
theorem spec_c10 {σd σr : Type}
    (streams : List Stream) (packets : List Packet)
    (decoderInit : Stream → Except Err σd) (ctxInit : Except Err Unit)
    (resamplerInit : AudioParams → Except Err σr)
    (D : Machine σd Packet RawFrame)
    (R : Machine σr RawFrame ConvertedFrame)
    (engine : FullParams → List F32 → Except Err (List Segment))
    (language : String) (idx : Nat) (stream : Stream) (ap : AudioParams)
    (sd0 : σd) (sr0 : σr) (tr : List Event) (segs : List Segment)
    (hsel : select_audio_stream streams = Except.ok (idx, stream))
    (hap : stream.codec_parameters.audio = some ap)
    (hdec : decoderInit stream = Except.ok sd0)
    (hctx : ctxInit = Except.ok ())
    (hres : resamplerInit ap = Except.ok sr0)
    (hrun : runPipeline D R idx packets sd0 sr0 = Except.ok ([], tr))
    (heng : engine (get_params language) [] = Except.ok segs)
    (htext : ∀ s ∈ segs, s.text.isSome = true) :
    transcribe streams packets decoderInit ctxInit resamplerInit D R
        engine language = printSegments segs ∧
    linesCount (transcribe streams packets decoderInit ctxInit resamplerInit
        D R engine language) = some segs.length := by
  have htrans : transcribe streams packets decoderInit ctxInit resamplerInit
      D R engine language = printSegments segs := by
    unfold transcribe
    rw [hsel]
    simp only [hap, hdec, hctx, hres, hrun, heng]
  refine ⟨htrans, ?_⟩
  rw [htrans]
  exact printSegments_length segs htext

/-- C10 witness: with an audio stream present, no packets, and
frame-less decoder and resampler, the run accumulates nothing, the engine
is still invoked on the empty buffer and reports one segment, and exactly
one line is printed. -/
theorem spec_c10_witness :
    transcribe
        [Stream.mk (CodecParameters.mk (some (AudioParams.mk 2 3 44100)))] []
        (fun _ => Except.ok ()) (Except.ok ()) (fun _ => Except.ok ())
        idleDecoder idleResampler
        (fun _ _ => Except.ok [Segment.mk (some "hi") 0 1]) "en" =
      printSegments [Segment.mk (some "hi") 0 1] ∧
    linesCount
        (transcribe
          [Stream.mk (CodecParameters.mk (some (AudioParams.mk 2 3 44100)))] []
          (fun _ => Except.ok ()) (Except.ok ()) (fun _ => Except.ok ())
          idleDecoder idleResampler
          (fun _ _ => Except.ok [Segment.mk (some "hi") 0 1]) "en") =
      some ([Segment.mk (some "hi") 0 1] : List Segment).length :=
  spec_c10
    [Stream.mk (CodecParameters.mk (some (AudioParams.mk 2 3 44100)))] []
    (fun _ => Except.ok ()) (Except.ok ()) (fun _ => Except.ok ())
    idleDecoder idleResampler
    (fun _ _ => Except.ok [Segment.mk (some "hi") 0 1]) "en"
    0 (Stream.mk (CodecParameters.mk (some (AudioParams.mk 2 3 44100))))
    (AudioParams.mk 2 3 44100) () ()
    [Event.decoderFlush, Event.resamplerFlush] [Segment.mk (some "hi") 0 1]
    rfl rfl rfl rfl rfl rfl rfl (by decide)

end WhisperFfmpeg
